import Mathlib

/-!
Shallow embedding of `src/src/Color.class.js` (chharvey/Color.js), the revision the
verified claims cite.  JS numbers are modelled as exact rationals `ℚ` (every
quantity manipulated by the verified code paths is a small rational, so no
floating-point rounding intervenes); JS strings are modelled as `List Char`.
The two JS operations that escape rational arithmetic — `Math.sqrt` inside
`blur`, and the real exponentials of the sRGB transfer function that the *spec*
(not the code) prescribes for `blur` — are handled respectively by an exact
rational computation of `round ∘ sqrt` (justified against `Real.sqrt` below)
and by noncomputable definitions over `ℝ`.
-/

namespace ColorJs

/-- JS `Math.round`: rounds to the nearest integer, rounding halves toward
positive infinity, i.e. `Math.round x = ⌊x + 1/2⌋`. -/
def jsRound (q : ℚ) : ℤ := ⌊q + 1/2⌋

/-- Truncation of a rational toward zero, as performed implicitly by the JS
remainder operator `%` on its quotient. -/
def ratTrunc (q : ℚ) : ℤ := if 0 ≤ q then ⌊q⌋ else -⌊-q⌋

/-- JS remainder operator `a % n` on numbers: `a - n * trunc (a / n)`.
The result takes the sign of the dividend `a`; for negative `a` it is a
negative remainder, not a positive modulo. -/
def jsRem (a n : ℚ) : ℚ := a - n * (ratTrunc (a / n) : ℚ)

/-- The `Color` value: the constructor stores integer red, green, blue
components (`Math.round` of the clamped inputs) and a rational alpha.
(`src/src/Color.class.js` lines 20–58.) -/
structure Color where
  red : ℤ
  green : ℤ
  blue : ℤ
  alpha : ℚ
deriving DecidableEq, Repr

/-- JS `Math.min` on two (non-NaN) numbers. -/
def jsMin (a b : ℚ) : ℚ := if a ≤ b then a else b

/-- JS `Math.max` on two (non-NaN) numbers. -/
def jsMax (a b : ℚ) : ℚ := if b ≤ a then a else b

/-- JS `Math.abs`. -/
def jsAbs (q : ℚ) : ℚ := if q < 0 then -q else q

/-- Clamp used by the constructor: `Math.max(0, Math.min(v, hi))`. -/
def clampTo (v hi : ℚ) : ℚ := jsMax 0 (jsMin v hi)

/-- The constructor `new Color(r, g, b, a)`: each of r, g, b is clamped into
[0,255] and then rounded (`Math.round(Math.max(0, Math.min(r, 255)))`);
alpha is clamped into [0,1] and *not* rounded. -/
def mkColor (r g b a : ℚ) : Color :=
  { red := jsRound (clampTo r 255)
    green := jsRound (clampTo g 255)
    blue := jsRound (clampTo b 255)
    alpha := clampTo a 1 }

/-- Helper field `this._max`: `Math.max(R, G, B) / 255`. -/
def maxC (c : Color) : ℚ := jsMax (jsMax (c.red : ℚ) (c.green : ℚ)) (c.blue : ℚ) / 255

/-- Helper field `this._min`: `Math.min(R, G, B) / 255`. -/
def minC (c : Color) : ℚ := jsMin (jsMin (c.red : ℚ) (c.green : ℚ)) (c.blue : ℚ) / 255

/-- Helper field `this._chroma = this._max - this._min`. -/
def chroma (c : Color) : ℚ := maxC c - minC c

/-- Getter `hsvHue` (lines 118–134): 0 when chroma is 0, otherwise one of three
linear formulas selected by `indexOf` of the maximal normalized channel
(first match in r, g, b order).  The r-branch applies `% 6` (nonnegative
operands there, so `jsRem` agrees with the mathematical mod). -/
def hsvHue (c : Color) : ℚ :=
  if chroma c = 0 then 0
  else
    let r : ℚ := (c.red : ℚ) / 255
    let g : ℚ := (c.green : ℚ) / 255
    let b : ℚ := (c.blue : ℚ) / 255
    if r = maxC c then jsRem ((g - b) / chroma c + 6) 6 * 60
    else if g = maxC c then ((b - r) / chroma c + 2) * 60
    else ((r - g) / chroma c + 4) * 60

/-- Getter `hsvVal`: `this._max`. -/
def hsvVal (c : Color) : ℚ := maxC c

/-- Getter `hsvSat` (lines 144–146): 0 when chroma is 0, else chroma / hsvVal. -/
def hsvSat (c : Color) : ℚ := if chroma c = 0 then 0 else chroma c / hsvVal c

/-- Getter `hslLum` (lines 206–208): `0.5 * (max + min)`. -/
def hslLum (c : Color) : ℚ := 1/2 * (maxC c + minC c)

/-- Getter `hslSat` (lines 181–196): 0 when chroma is 0, else chroma divided by
the branch `lum ≤ 0.5 ? 2·lum : 2 − 2·lum`. -/
def hslSat (c : Color) : ℚ :=
  if chroma c = 0 then 0
  else chroma c / (if hslLum c ≤ 1/2 then 2 * hslLum c else 2 - 2 * hslLum c)

/-- Static factory `Color.fromHSV` (lines 578–590).  The JS code declares
`let rgb;` and assigns it only inside one of six sector guards covering
`[0,360)`; for a hue outside `[0,360)` no guard fires, `rgb` stays
`undefined`, and `rgb.map` throws a TypeError.  The model returns `none`
exactly in that case. -/
def fromHSV (hue sat val alpha : ℚ) : Option Color :=
  let c := sat * val
  let x := c * (1 - jsAbs (jsRem (hue / 60) 2 - 1))
  let m := val - c
  let sector : Option (ℚ × ℚ × ℚ) :=
    if 0 ≤ hue ∧ hue < 60 then some (c, x, 0)
    else if 60 ≤ hue ∧ hue < 120 then some (x, c, 0)
    else if 120 ≤ hue ∧ hue < 180 then some (0, c, x)
    else if 180 ≤ hue ∧ hue < 240 then some (0, x, c)
    else if 240 ≤ hue ∧ hue < 300 then some (x, 0, c)
    else if 300 ≤ hue ∧ hue < 360 then some (c, 0, x)
    else none
  sector.map fun t =>
    mkColor ((jsRound ((t.1 + m) * 255) : ℚ)) ((jsRound ((t.2.1 + m) * 255) : ℚ))
      ((jsRound ((t.2.2 + m) * 255) : ℚ)) alpha

/-- Method `rotate(a)` (lines 304–306):
`Color.fromHSV((this.hsvHue + a) % 360, this.hsvSat, this.hsvVal, this.alpha)`
with the raw JS remainder `%`.  `none` models the TypeError thrown by
`fromHSV` when the remainder is negative. -/
def rotate (c : Color) (a : ℚ) : Option Color :=
  fromHSV (jsRem (hsvHue c + a) 360) (hsvSat c) (hsvVal c) c.alpha

/-- JS `Array.prototype.reduce(f)` with no initial value; it throws on an empty
array, which no verified claim exercises (the `[]` case returns a junk 0). -/
def reduce1 (f : ℚ → ℚ → ℚ) : List ℚ → ℚ
  | [] => 0
  | x :: xs => xs.foldl f x

/-- Static helper `Color._compoundOpacity(alphas)` (lines 75–77):
`1 - alphas.map((a) => 1-a).reduce((a,b) => a*b)`. -/
def compoundOpacity (alphas : List ℚ) : ℚ :=
  1 - reduce1 (fun a b => a * b) (alphas.map fun a => 1 - a)

/-- Method `mix($color, w)` (lines 434–440): per-channel weighted average
`Math.round((1-w)·this + w·other)` and compound opacity for alpha, all fed
through the constructor. -/
def mix (c₁ c₂ : Color) (w : ℚ) : Color :=
  mkColor ((jsRound ((1 - w) * (c₁.red : ℚ) + w * (c₂.red : ℚ)) : ℚ))
    ((jsRound ((1 - w) * (c₁.green : ℚ) + w * (c₂.green : ℚ)) : ℚ))
    ((jsRound ((1 - w) * (c₁.blue : ℚ) + w * (c₂.blue : ℚ)) : ℚ))
    (compoundOpacity [c₁.alpha, c₂.alpha])

/-- Method `equals($color)` (lines 469–478): reference identity (structural
equality in this value model), then the both-transparent escape, then exact
component comparison. -/
def equals (c₁ c₂ : Color) : Bool :=
  if c₁ = c₂ then true
  else if c₁.alpha = 0 ∧ c₂.alpha = 0 then true
  else decide (c₁.red = c₂.red ∧ c₁.green = c₂.green ∧ c₁.blue = c₂.blue ∧ c₁.alpha = c₂.alpha)

/-- Exact value of JS `Math.round(Math.sqrt q)` for a rational `q ≥ 0`:
`⌊√q + 1/2⌋ = ⌊(√(4q) + 1) / 2⌋ = (Nat.sqrt ⌊4q⌋ + 1) / 2`.  The lemma
`roundSqrt_eq_floor_sqrt` below proves this agreement with `Real.sqrt`. -/
def roundSqrt (q : ℚ) : ℤ := ((Nat.sqrt (⌊4 * q⌋).toNat + 1) / 2 : ℕ)

/-- Method `blur($color, w)` (lines 452–458): per-channel
`Math.round(Math.sqrt((1-w)·this² + w·other²))` on the raw 0–255 channels
(a weighted quadratic mean), and compound opacity for alpha, all fed
through the constructor. -/
def blur (c₁ c₂ : Color) (w : ℚ) : Color :=
  mkColor ((roundSqrt ((1 - w) * (c₁.red : ℚ) ^ 2 + w * (c₂.red : ℚ) ^ 2) : ℚ))
    ((roundSqrt ((1 - w) * (c₁.green : ℚ) ^ 2 + w * (c₂.green : ℚ) ^ 2) : ℚ))
    ((roundSqrt ((1 - w) * (c₁.blue : ℚ) ^ 2 + w * (c₂.blue : ℚ) ^ 2) : ℚ))
    (compoundOpacity [c₁.alpha, c₂.alpha])

/-- JS `Number.prototype.toString(16)` for the nonnegative integers the getters
produce: unpadded lowercase hexadecimal digits (`(0).toString(16) = "0"`,
`(255).toString(16) = "ff"`), which is exactly `Nat.toDigits 16`.
Constructed colors always have integer channels in [0,255] (see the C5
theorem), so `Int.toNat` is exact on every reachable input. -/
def intToHex (n : ℤ) : List Char := Nat.toDigits 16 n.toNat

/-- Method `toString()` in the default HEX space (lines 530–537):
`` `#${red}${green}${blue}${(this.alpha < 1) ? alpha : ''}` `` where each part
is `toString(16)` of the channel (alpha first scaled by 255 and rounded).
No zero-padding is applied by this revision. -/
def toStringHex (c : Color) : List Char :=
  '#' :: (intToHex c.red ++ intToHex c.green ++ intToHex c.blue
    ++ if c.alpha < 1 then intToHex (jsRound (c.alpha * 255)) else [])

/-- Numeric value of one hexadecimal digit, case-insensitive, as consumed by
JS `parseInt(·, 16)`; `none` for a non-digit. -/
def hexVal (ch : Char) : Option ℕ :=
  if '0' ≤ ch ∧ ch ≤ '9' then some (ch.toNat - 48)
  else if 'a' ≤ ch ∧ ch ≤ 'f' then some (ch.toNat - 87)
  else if 'A' ≤ ch ∧ ch ≤ 'F' then some (ch.toNat - 55)
  else none

/-- Accumulating digit loop of `parseInt(·, 16)`: consumes hex digits until the
first non-digit (or the end) and returns the value read so far. -/
def parseHexGo (acc : ℕ) : List Char → ℕ
  | [] => acc
  | ch :: rest =>
    match hexVal ch with
    | some v => parseHexGo (16 * acc + v) rest
    | none => acc

/-- JS `parseInt(s, 16)` on the slices `fromString` feeds it (no sign, no
whitespace, no 0x prefix arise there): `NaN` — modelled as `none` — iff the
first character is not a hex digit (in particular on the empty string). -/
def parseHex (s : List Char) : Option ℕ :=
  match s with
  | [] => none
  | ch :: rest => (hexVal ch).map fun v => parseHexGo v rest

/-- JS `String.prototype.slice(i, j)` for `0 ≤ i ≤ j`. -/
def strSlice (s : List Char) (i j : ℕ) : List Char := (s.drop i).take (j - i)

/-- Static factory `Color.fromString(str)` (lines 666–683), hex branch: a
string starting with `#` is parsed by fixed slicing — `str.slice(1,3)`,
`str.slice(3,5)`, `str.slice(5,7)` through `parseInt(·,16)` for red, green,
blue, and `str.slice(7,9)/255` for alpha exactly when `str.length === 9`,
else alpha 1 — with no length validation and no short-form expansion.
`none` models a `NaN` channel (a slice with no leading hex digit), which in
JS silently produces a Color whose channels are `NaN`, a value outside this
rational model.  The functional-notation branch (`rgb(...)`, `hsv(...)`, …)
of the JS code is not modelled: no verified claim exercises it, and the JS
`default` case there returns `null`, also `none` here. -/
def fromString (s : List Char) : Option Color :=
  if s.head? = some '#' then
    match parseHex (strSlice s 1 3), parseHex (strSlice s 3 5), parseHex (strSlice s 5 7) with
    | some r, some g, some b =>
      if s.length = 9 then
        (parseHex (strSlice s 7 9)).map fun a => mkColor r g b ((a : ℚ) / 255)
      else some (mkColor r g b 1)
    | _, _, _ => none
  else none

/-- Channel folding of the static `Color.mix` (lines 699–711): arithmetic mean
when `blurFlag` is false, and the (`a*a + b*b` reduce) square-mean variant
when it is true, each rounded. -/
def staticMixCompound (blurFlag : Bool) (len : ℕ) (arr : List ℚ) : ℤ :=
  if blurFlag then roundSqrt (reduce1 (fun a b => a * a + b * b) arr / (len : ℚ))
  else jsRound (reduce1 (fun a b => a + b) arr / (len : ℚ))

/-- Static factory `Color.mix($colors, blur)` (lines 699–711): per-channel
compound of all reds, greens, blues, with compound opacity of all alphas,
fed through the constructor. -/
def staticMix (colors : List Color) (blurFlag : Bool) : Color :=
  mkColor ((staticMixCompound blurFlag colors.length (colors.map fun c => (c.red : ℚ)) : ℚ))
    ((staticMixCompound blurFlag colors.length (colors.map fun c => (c.green : ℚ)) : ℚ))
    ((staticMixCompound blurFlag colors.length (colors.map fun c => (c.blue : ℚ)) : ℚ))
    (compoundOpacity (colors.map fun c => c.alpha))

/-- The sRGB-to-linear transfer function exactly as the specification states
it for `blur`: `linear = srgb ≤ 0.03928 ? srgb/12.92 : ((srgb+0.055)/1.055)^2.4`.
This definition follows the spec text, not the code: the claim C4 compares
the code's `blur` against it. -/
noncomputable def specSrgbToLinear (x : ℝ) : ℝ :=
  if x ≤ 0.03928 then x / 12.92 else ((x + 0.055) / 1.055) ^ (2.4 : ℝ)

/-- The linear-to-sRGB inverse transfer function exactly as the specification
states it: `srgb = linear ≤ 0.00304 ? linear·12.92 : 1.055·linear^(1/2.4) − 0.055`.
This definition follows the spec text, not the code. -/
noncomputable def specLinearToSrgb (y : ℝ) : ℝ :=
  if y ≤ 0.00304 then y * 12.92 else 1.055 * y ^ ((1 : ℝ) / 2.4) - 0.055

/-- The result channel the specification's blur rule prescribes, on 0–255
channels: linearize both normalized channels, take the w-weighted average,
convert back, rescale to [0,255] and round. -/
noncomputable def specBlurChannel (a b w : ℝ) : ℤ :=
  ⌊255 * specLinearToSrgb ((1 - w) * specSrgbToLinear (a / 255)
    + w * specSrgbToLinear (b / 255)) + 1/2⌋

/-- Lowercase hexadecimal digit character for a value 0–15, used to quantify
over well-formed hex strings in the amended C9. -/
def hexDigitChar (v : Fin 16) : Char :=
  if (v : ℕ) < 10 then Char.ofNat (48 + v) else Char.ofNat (87 + v)

/-- Weighted quadratic mean of two raw channels, rounded: the channel rule the
amended C4 asserts `blur` implements.  Stated independently of `blur`. -/
def quadMeanChannel (a b : ℤ) (w : ℚ) : ℤ :=
  roundSqrt ((1 - w) * (a : ℚ) ^ 2 + w * (b : ℚ) ^ 2)

/-! ## Helper lemmas -/

theorem jsRound_nonneg {q : ℚ} (h : 0 ≤ q) : 0 ≤ jsRound q := by
  apply Int.le_floor.mpr
  push_cast
  linarith

theorem jsRound_le {q : ℚ} {B : ℤ} (h : q ≤ B) : jsRound q ≤ B := by
  have : jsRound q < B + 1 := by
    apply Int.floor_lt.mpr
    push_cast
    linarith
  omega

theorem clampTo_nonneg (v hi : ℚ) : 0 ≤ clampTo v hi := by
  unfold clampTo jsMax jsMin
  split_ifs <;> linarith

theorem clampTo_le {v hi : ℚ} (h : 0 ≤ hi) : clampTo v hi ≤ hi := by
  unfold clampTo jsMax jsMin
  split_ifs <;> linarith

/-! ## C5 -/

/-- Claim C5 counterexample: the constructor does not merely clamp.  For the
fractional input r = 3.7 the stored red channel is `Math.round(3.7) = 4`,
not the clamped value 3.7 that the claim asserts the accessor returns. -/
theorem mkColor_red_ne_clamped :
    ¬ (((mkColor (37/10) 0 0 1).red : ℚ) = clampTo (37/10) 255) := by
  have h1 : clampTo (37/10) 255 = 37/10 := by
    unfold clampTo jsMax jsMin
    norm_num
  have h2 : (mkColor (37/10) 0 0 1).red = 4 := by
    show jsRound (clampTo (37/10) 255) = 4
    rw [h1]
    unfold jsRound
    rw [Int.floor_eq_iff]
    norm_num
  rw [h1, h2]
  norm_num

/-- Claim C5 amended: construction never fails, and the accessors return the
inputs clamped into their legal ranges *and, for r, g, b, rounded to the
nearest integer*; alpha is clamped into [0,1] without rounding.  All stored
components lie in their legal ranges. -/
theorem mkColor_spec (r g b a : ℚ) :
    (mkColor r g b a).red = jsRound (clampTo r 255) ∧
    (mkColor r g b a).green = jsRound (clampTo g 255) ∧
    (mkColor r g b a).blue = jsRound (clampTo b 255) ∧
    (mkColor r g b a).alpha = clampTo a 1 ∧
    0 ≤ (mkColor r g b a).red ∧ (mkColor r g b a).red ≤ 255 ∧
    0 ≤ (mkColor r g b a).green ∧ (mkColor r g b a).green ≤ 255 ∧
    0 ≤ (mkColor r g b a).blue ∧ (mkColor r g b a).blue ≤ 255 ∧
    0 ≤ (mkColor r g b a).alpha ∧ (mkColor r g b a).alpha ≤ 1 := by
  refine ⟨rfl, rfl, rfl, rfl, ?_, ?_, ?_, ?_, ?_, ?_, ?_, ?_⟩
  · exact jsRound_nonneg (clampTo_nonneg r 255)
  · exact jsRound_le (clampTo_le (by norm_num))
  · exact jsRound_nonneg (clampTo_nonneg g 255)
  · exact jsRound_le (clampTo_le (by norm_num))
  · exact jsRound_nonneg (clampTo_nonneg b 255)
  · exact jsRound_le (clampTo_le (by norm_num))
  · exact clampTo_nonneg a 1
  · exact clampTo_le (by norm_num)

/-! ## C7 -/

theorem color_eq_iff (c₁ c₂ : Color) :
    c₁ = c₂ ↔ (c₁.red = c₂.red ∧ c₁.green = c₂.green ∧ c₁.blue = c₂.blue ∧ c₁.alpha = c₂.alpha) := by
  cases c₁
  cases c₂
  simp

/-- Claim C7: `equals` returns true for the same object (structural identity in
this value model), true whenever both colors have alpha 0 regardless of RGB,
and otherwise true exactly when all four components are exactly equal. -/
theorem equals_characterization (c₁ c₂ : Color) :
    equals c₁ c₂ = true ↔
      (c₁ = c₂ ∨ (c₁.alpha = 0 ∧ c₂.alpha = 0) ∨
        (c₁.red = c₂.red ∧ c₁.green = c₂.green ∧ c₁.blue = c₂.blue ∧ c₁.alpha = c₂.alpha)) := by
  unfold equals
  split_ifs with h₁ h₂
  · simp [h₁]
  · simp [h₂]
  · simp only [decide_eq_true_eq]
    constructor
    · intro h
      exact Or.inr (Or.inr h)
    · rintro (h | h | h)
      · exact (color_eq_iff c₁ c₂).mp h
      · exact absurd h h₂
      · exact h

/-! ## C8 -/

/-- Claim C8: mix is weight-symmetric, `c₁.mix(c₂, w) = c₂.mix(c₁, 1-w)`
(exactly, in this exact-rational model), and the alpha of the result is the
compound opacity `1 - (1-a₁)(1-a₂)` of the two alphas (clamped by the
constructor), not an average. -/
theorem mix_symm (c₁ c₂ : Color) (w : ℚ) (h0 : 0 ≤ w) (h1 : w ≤ 1) :
    mix c₁ c₂ w = mix c₂ c₁ (1 - w) ∧
      (mix c₁ c₂ w).alpha = clampTo (1 - (1 - c₁.alpha) * (1 - c₂.alpha)) 1 := by
  constructor
  · unfold mix
    have hr : (1 - w) * (c₁.red : ℚ) + w * (c₂.red : ℚ)
        = (1 - (1 - w)) * (c₂.red : ℚ) + (1 - w) * (c₁.red : ℚ) := by ring
    have hg : (1 - w) * (c₁.green : ℚ) + w * (c₂.green : ℚ)
        = (1 - (1 - w)) * (c₂.green : ℚ) + (1 - w) * (c₁.green : ℚ) := by ring
    have hb : (1 - w) * (c₁.blue : ℚ) + w * (c₂.blue : ℚ)
        = (1 - (1 - w)) * (c₂.blue : ℚ) + (1 - w) * (c₁.blue : ℚ) := by ring
    have ha : compoundOpacity [c₁.alpha, c₂.alpha] = compoundOpacity [c₂.alpha, c₁.alpha] := by
      unfold compoundOpacity reduce1
      simp only [List.map, List.foldl]
      ring
    rw [hr, hg, hb, ha]
  · show clampTo (compoundOpacity [c₁.alpha, c₂.alpha]) 1 = _
    have : compoundOpacity [c₁.alpha, c₂.alpha] = 1 - (1 - c₁.alpha) * (1 - c₂.alpha) := by
      unfold compoundOpacity reduce1
      simp only [List.map, List.foldl]
    rw [this]

/-- Claim C8 witness: concrete instance at two concrete colors and w = 1/4. -/
theorem mix_symm_witness :
    (0 : ℚ) ≤ 1/4 ∧ (1/4 : ℚ) ≤ 1 ∧
      (mix (mkColor 10 20 30 (1/2)) (mkColor 250 3 7 (1/4)) (1/4)
          = mix (mkColor 250 3 7 (1/4)) (mkColor 10 20 30 (1/2)) (1 - 1/4) ∧
        (mix (mkColor 10 20 30 (1/2)) (mkColor 250 3 7 (1/4)) (1/4)).alpha
          = clampTo (1 - (1 - (mkColor 10 20 30 (1/2)).alpha) * (1 - (mkColor 250 3 7 (1/4)).alpha)) 1) :=
  ⟨by norm_num, by norm_num,
    mix_symm (mkColor 10 20 30 (1/2)) (mkColor 250 3 7 (1/4)) (1/4) (by norm_num) (by norm_num)⟩

/-! ## C10 -/

/-- Claim C10: the static even mix of two colors with `blur = false` agrees in
every component with the instance mix at its default weight 0.5. -/
theorem staticMix_pair_eq_mix (a b : Color) :
    staticMix [a, b] false = mix a b (1/2) := by
  unfold staticMix mix staticMixCompound
  simp only [Bool.false_eq_true, if_false, List.map_cons, List.map_nil, List.length_cons,
    List.length_nil]
  have hr : reduce1 (fun x y => x + y) [(a.red : ℚ), (b.red : ℚ)] / ((0 + 1 + 1 : ℕ) : ℚ)
      = (1 - 1/2) * (a.red : ℚ) + (1/2) * (b.red : ℚ) := by
    unfold reduce1
    simp only [List.foldl]
    push_cast
    ring
  have hg : reduce1 (fun x y => x + y) [(a.green : ℚ), (b.green : ℚ)] / ((0 + 1 + 1 : ℕ) : ℚ)
      = (1 - 1/2) * (a.green : ℚ) + (1/2) * (b.green : ℚ) := by
    unfold reduce1
    simp only [List.foldl]
    push_cast
    ring
  have hb : reduce1 (fun x y => x + y) [(a.blue : ℚ), (b.blue : ℚ)] / ((0 + 1 + 1 : ℕ) : ℚ)
      = (1 - 1/2) * (a.blue : ℚ) + (1/2) * (b.blue : ℚ) := by
    unfold reduce1
    simp only [List.foldl]
    push_cast
    ring
  rw [hr, hg, hb]

/-! ## C6 -/

/-- Claim C6: for a color whose three RGB channels are equal (chroma 0), the
getters `hsvHue`, `hsvSat` and `hslSat` all return 0: each one's
chroma-zero guard answers before any division is attempted, so no
division by zero occurs. -/
theorem gray_getters_zero (c : Color) (hrg : c.red = c.green) (hgb : c.green = c.blue) :
    hsvHue c = 0 ∧ hsvSat c = 0 ∧ hslSat c = 0 := by
  have hch : chroma c = 0 := by
    unfold chroma maxC minC jsMax jsMin
    rw [hrg, hgb]
    simp
  refine ⟨?_, ?_, ?_⟩
  · unfold hsvHue
    rw [if_pos hch]
  · unfold hsvSat
    rw [if_pos hch]
  · unfold hslSat
    rw [if_pos hch]

/-- Claim C6 witness: the concrete gray color with all channels 128. -/
theorem gray_getters_zero_witness :
    hsvHue (Color.mk 128 128 128 1) = 0 ∧ hsvSat (Color.mk 128 128 128 1) = 0 ∧
      hslSat (Color.mk 128 128 128 1) = 0 :=
  gray_getters_zero (Color.mk 128 128 128 1) rfl rfl

/-! ## Evaluation helpers for concrete inputs -/

theorem floor_eval {α : Type} [LinearOrderedRing α] [FloorRing α] {q : α} {z : ℤ}
    (h₁ : (z : α) ≤ q) (h₂ : q < (z : α) + 1) : ⌊q⌋ = z :=
  Int.floor_eq_iff.mpr ⟨h₁, h₂⟩

theorem jsRound_eval {q : ℚ} {z : ℤ} (h₁ : (z : ℚ) ≤ q + 1/2) (h₂ : q + 1/2 < (z : ℚ) + 1) :
    jsRound q = z :=
  floor_eval h₁ h₂

theorem jsRound_intCast (n : ℤ) : jsRound (n : ℚ) = n :=
  jsRound_eval (by linarith) (by linarith)

theorem clampTo_of_mem {v hi : ℚ} (h₀ : 0 ≤ v) (h₁ : v ≤ hi) : clampTo v hi = v := by
  unfold clampTo jsMax jsMin
  split_ifs <;> linarith

theorem mkColor_of_int (r g b : ℤ) (a : ℚ) (hr₀ : 0 ≤ r) (hr₁ : r ≤ 255)
    (hg₀ : 0 ≤ g) (hg₁ : g ≤ 255) (hb₀ : 0 ≤ b) (hb₁ : b ≤ 255)
    (ha₀ : 0 ≤ a) (ha₁ : a ≤ 1) :
    mkColor (r : ℚ) (g : ℚ) (b : ℚ) a = Color.mk r g b a := by
  unfold mkColor
  rw [clampTo_of_mem (by exact_mod_cast hr₀) (by exact_mod_cast hr₁),
    clampTo_of_mem (by exact_mod_cast hg₀) (by exact_mod_cast hg₁),
    clampTo_of_mem (by exact_mod_cast hb₀) (by exact_mod_cast hb₁),
    clampTo_of_mem ha₀ ha₁,
    jsRound_intCast, jsRound_intCast, jsRound_intCast]

theorem ratTrunc_eval_neg {q : ℚ} {z : ℤ} (h₀ : ¬ 0 ≤ q) (h₁ : (z : ℚ) ≤ -q)
    (h₂ : -q < (z : ℚ) + 1) : ratTrunc q = -z := by
  unfold ratTrunc
  rw [if_neg h₀, floor_eval h₁ h₂]

theorem ratTrunc_eval_nonneg {q : ℚ} {z : ℤ} (h₀ : 0 ≤ q) (h₁ : (z : ℚ) ≤ q)
    (h₂ : q < (z : ℚ) + 1) : ratTrunc q = z := by
  unfold ratTrunc
  rw [if_pos h₀]
  exact floor_eval h₁ h₂

/-! ## C2 -/

/-- Claim C2 (code bug evidence): rotating pure red (hue 0) by −60 degrees.
The raw JS remainder gives `(0 − 60) % 360 = −60`, no 60-degree sector of
`fromHSV` matches a negative hue, and the JS `rgb.map` call throws; the
claim instead requires hue 300 and a successful rotation. -/
theorem rotate_neg_fails : rotate (mkColor 255 0 0 1) (-60) = none := by
  have hc : mkColor 255 0 0 1 = Color.mk 255 0 0 1 := by
    have h := mkColor_of_int 255 0 0 1 (by norm_num) (by norm_num) (by norm_num) (by norm_num)
      (by norm_num) (by norm_num) (by norm_num) (by norm_num)
    simpa using h
  rw [hc]
  have hmax : maxC (Color.mk 255 0 0 1) = 1 := by
    unfold maxC jsMax
    norm_num
  have hmin : minC (Color.mk 255 0 0 1) = 0 := by
    unfold minC jsMin
    norm_num
  have hch : chroma (Color.mk 255 0 0 1) = 1 := by
    unfold chroma
    rw [hmax, hmin]
    norm_num
  have hhue : hsvHue (Color.mk 255 0 0 1) = 0 := by
    unfold hsvHue
    rw [hch, hmax]
    norm_num
    rw [jsRem, ratTrunc_eval_nonneg (q := 6 / 6) (z := 1) (by norm_num) (by norm_num) (by norm_num)]
    norm_num
  have hrem : jsRem (hsvHue (Color.mk 255 0 0 1) + -60) 360 = -60 := by
    rw [hhue]
    rw [jsRem, ratTrunc_eval_neg (q := (0 + -60) / 360) (z := 0) (by norm_num) (by norm_num)
      (by norm_num)]
    norm_num
  unfold rotate
  rw [hrem]
  unfold fromHSV
  norm_num

/-! ## C3 -/

/-- Claim C3 (code bug evidence): opaque black serializes to the 4-character
string `#000`, not the claimed 7-character `#000000`: each zero channel is
rendered as the single digit `0` because `toString(16)` pads nothing. -/
theorem toStringHex_black : toStringHex (mkColor 0 0 0 1) = ['#', '0', '0', '0'] := by
  have hc : mkColor 0 0 0 1 = Color.mk 0 0 0 1 := by
    simpa using mkColor_of_int 0 0 0 1 (by norm_num) (by norm_num) (by norm_num) (by norm_num)
      (by norm_num) (by norm_num) (by norm_num) (by norm_num)
  rw [hc]
  unfold toStringHex
  rw [if_neg (by norm_num)]
  decide

/-! ## C1 -/

/-- Claim C1 (code bug evidence): the hex round-trip fails for a color with
alpha exactly 0.  `(Color(170,187,204,0)).toString('hex')` is `#aabbcc0`
(single-digit alpha, 8 characters); `fromString` sees a length other than 9
and re-parses it as the *opaque* `#aabbcc`, which re-serializes as
`#aabbcc`, not the original string. -/
theorem hex_roundtrip_failure :
    (fromString (toStringHex (mkColor 170 187 204 0))).map toStringHex
      ≠ some (toStringHex (mkColor 170 187 204 0)) := by
  have hc : mkColor 170 187 204 0 = Color.mk 170 187 204 0 := by
    simpa using mkColor_of_int 170 187 204 0 (by norm_num) (by norm_num) (by norm_num)
      (by norm_num) (by norm_num) (by norm_num) (by norm_num) (by norm_num)
  have hs : toStringHex (Color.mk 170 187 204 0) = ['#', 'a', 'a', 'b', 'b', 'c', 'c', '0'] := by
    unfold toStringHex
    rw [if_pos (by norm_num), show jsRound ((Color.mk 170 187 204 0).alpha * 255) = 0 from
      jsRound_eval (by norm_num) (by norm_num)]
    decide
  have hp : fromString ['#', 'a', 'a', 'b', 'b', 'c', 'c', '0'] = some (mkColor 170 187 204 1) := by
    rfl
  have hc1 : mkColor 170 187 204 1 = Color.mk 170 187 204 1 := by
    simpa using mkColor_of_int 170 187 204 1 (by norm_num) (by norm_num) (by norm_num)
      (by norm_num) (by norm_num) (by norm_num) (by norm_num) (by norm_num)
  have hs1 : toStringHex (Color.mk 170 187 204 1) = ['#', 'a', 'a', 'b', 'b', 'c', 'c'] := by
    unfold toStringHex
    rw [if_neg (by norm_num)]
    decide
  rw [hc, hs, hp, hc1]
  simp [hs1]

/-! ## C9 -/

/-- Claim C9 counterexample: `#aabbccddee` has 10 hexadecimal digits after
`#`, which the claim requires to fail with a format error; the code instead
parses the first six digits (and, since the length is not 9, ignores the
rest and takes alpha 1), successfully returning a color. -/
theorem fromString_accepts_bad_length :
    fromString ("#aabbccddee".data) = some (mkColor 170 187 204 1) := by
  rfl

theorem hexVal_hexDigitChar : ∀ x : Fin 16, hexVal (hexDigitChar x) = some (x : ℕ) := by
  decide

theorem parseHex_pair (x y : Fin 16) :
    parseHex [hexDigitChar x, hexDigitChar y] = some (16 * (x : ℕ) + y) := by
  simp [parseHex, parseHexGo, hexVal_hexDigitChar]

theorem fromString_hex_eval_noalpha (s : List Char) (r g b : ℕ)
    (hhead : s.head? = some '#')
    (hr : parseHex (strSlice s 1 3) = some r)
    (hg : parseHex (strSlice s 3 5) = some g)
    (hb : parseHex (strSlice s 5 7) = some b)
    (hlen : ¬ s.length = 9) :
    fromString s = some (mkColor r g b 1) := by
  unfold fromString
  rw [if_pos hhead, hr, hg, hb]
  dsimp only
  rw [if_neg hlen]

theorem fromString_hex_eval_alpha (s : List Char) (r g b a : ℕ)
    (hhead : s.head? = some '#')
    (hr : parseHex (strSlice s 1 3) = some r)
    (hg : parseHex (strSlice s 3 5) = some g)
    (hb : parseHex (strSlice s 5 7) = some b)
    (hlen : s.length = 9)
    (ha : parseHex (strSlice s 7 9) = some a) :
    fromString s = some (mkColor r g b ((a : ℚ) / 255)) := by
  unfold fromString
  rw [if_pos hhead, hr, hg, hb]
  dsimp only
  rw [if_pos hlen, ha]
  rfl

/-- Claim C9 amended: `fromString` performs no length validation and no
short-form expansion on `#`-prefixed strings: it parses the characters at
positions 1–2, 3–4, 5–6 as red, green, blue, takes alpha from positions
7–8 (scaled by 255) exactly when the total length is 9, else alpha 1, and
ignores any further characters.  (A `#`-string too short to fill a channel
yields a NaN channel in JS rather than an error.) -/
theorem fromString_hex_slicing :
    (∀ (x₁ x₂ x₃ x₄ x₅ x₆ : Fin 16) (rest : List Char), rest.length ≠ 2 →
      fromString ('#' :: hexDigitChar x₁ :: hexDigitChar x₂ :: hexDigitChar x₃ ::
          hexDigitChar x₄ :: hexDigitChar x₅ :: hexDigitChar x₆ :: rest)
        = some (mkColor ((16 * (x₁ : ℕ) + x₂ : ℕ) : ℚ) ((16 * (x₃ : ℕ) + x₄ : ℕ) : ℚ)
            ((16 * (x₅ : ℕ) + x₆ : ℕ) : ℚ) 1)) ∧
    (∀ (x₁ x₂ x₃ x₄ x₅ x₆ x₇ x₈ : Fin 16),
      fromString ('#' :: hexDigitChar x₁ :: hexDigitChar x₂ :: hexDigitChar x₃ ::
          hexDigitChar x₄ :: hexDigitChar x₅ :: hexDigitChar x₆ ::
          [hexDigitChar x₇, hexDigitChar x₈])
        = some (mkColor ((16 * (x₁ : ℕ) + x₂ : ℕ) : ℚ) ((16 * (x₃ : ℕ) + x₄ : ℕ) : ℚ)
            ((16 * (x₅ : ℕ) + x₆ : ℕ) : ℚ) (((16 * (x₇ : ℕ) + x₈ : ℕ) : ℚ) / 255))) := by
  constructor
  · intro x₁ x₂ x₃ x₄ x₅ x₆ rest hrest
    apply fromString_hex_eval_noalpha
    · rfl
    · exact parseHex_pair x₁ x₂
    · exact parseHex_pair x₃ x₄
    · exact parseHex_pair x₅ x₆
    · simp only [List.length_cons]
      omega
  · intro x₁ x₂ x₃ x₄ x₅ x₆ x₇ x₈
    apply fromString_hex_eval_alpha
    · rfl
    · exact parseHex_pair x₁ x₂
    · exact parseHex_pair x₃ x₄
    · exact parseHex_pair x₅ x₆
    · rfl
    · exact parseHex_pair x₇ x₈

/-- Claim C9 amended witness: the 10-digit-after-`#` string `#ff0012345`
parses by slicing to rgb(255, 0, 18) with alpha 1, the trailing `345`
ignored. -/
theorem fromString_hex_slicing_witness :
    fromString ("#ff0012345".data) = some (mkColor 255 0 18 1) := by
  have h := fromString_hex_slicing.1 15 15 0 0 1 2 ['3', '4', '5'] (by decide)
  have hs : ("#ff0012345".data) = '#' :: hexDigitChar 15 :: hexDigitChar 15 :: hexDigitChar 0 ::
      hexDigitChar 0 :: hexDigitChar 1 :: hexDigitChar 2 :: ['3', '4', '5'] := by decide
  rw [hs, h]
  norm_num [show ((15 : Fin 16) : ℕ) = 15 from rfl, show ((0 : Fin 16) : ℕ) = 0 from rfl,
    show ((1 : Fin 16) : ℕ) = 1 from rfl, show ((2 : Fin 16) : ℕ) = 2 from rfl]

/-! ## C4 -/

/-- Justification of the `roundSqrt` model: for every nonnegative rational it
computes exactly `⌊√q + 1/2⌋`, the value of `Math.round(Math.sqrt(q))`. -/
theorem roundSqrt_eq_floor_sqrt (q : ℚ) (hq : 0 ≤ q) :
    roundSqrt q = ⌊Real.sqrt (q : ℝ) + 1/2⌋ := by
  have h4q : (0 : ℚ) ≤ 4 * q := by linarith
  have hfloor_nonneg : 0 ≤ ⌊(4 * q : ℚ)⌋ := Int.floor_nonneg.mpr h4q
  set n : ℕ := (⌊(4 * q : ℚ)⌋).toNat with hn
  have hcast₁ : ((n : ℤ) : ℚ) ≤ 4 * q := by
    rw [hn, Int.toNat_of_nonneg hfloor_nonneg]
    exact Int.floor_le _
  have hcast₂ : (4 * q : ℚ) < (n : ℤ) + 1 := by
    rw [hn, Int.toNat_of_nonneg hfloor_nonneg]
    exact Int.lt_floor_add_one _
  set s : ℕ := Nat.sqrt n with hs
  have hs1 : s ^ 2 ≤ n := Nat.sqrt_le' n
  have hs2 : n < (s + 1) ^ 2 := Nat.lt_succ_sqrt' n
  have hsR1 : (s : ℝ) ≤ Real.sqrt (4 * (q : ℝ)) := by
    apply Real.le_sqrt_of_sq_le
    have h₁ : ((s : ℝ)) ^ 2 ≤ (n : ℝ) := by exact_mod_cast hs1
    have h₂ : ((n : ℝ)) ≤ 4 * (q : ℝ) := by exact_mod_cast hcast₁
    linarith
  have hsR2 : Real.sqrt (4 * (q : ℝ)) < (s : ℝ) + 1 := by
    rw [Real.sqrt_lt' (by positivity)]
    have h₁ : (4 * (q : ℝ)) < (n : ℝ) + 1 := by exact_mod_cast hcast₂
    have h₂ : ((n : ℝ)) + 1 ≤ ((s : ℝ) + 1) ^ 2 := by
      have := hs2
      have h₃ : ((n : ℝ)) < ((s + 1 : ℕ) : ℝ) ^ 2 := by exact_mod_cast hs2
      push_cast at h₃
      have h₄ : ((n : ℝ)) + 1 ≤ ((s : ℝ) + 1) ^ 2 := by
        have h₅ : (n : ℤ) + 1 ≤ ((s : ℤ) + 1) ^ 2 := by exact_mod_cast hs2
        exact_mod_cast h₅
      exact h₄
    linarith
  have hsplit : Real.sqrt (4 * (q : ℝ)) = 2 * Real.sqrt (q : ℝ) := by
    rw [show (4 : ℝ) * (q : ℝ) = (2 : ℝ) ^ 2 * (q : ℝ) by norm_num,
      Real.sqrt_mul (by positivity), Real.sqrt_sq (by norm_num)]
  have hL : (s : ℝ) ≤ 2 * Real.sqrt (q : ℝ) := hsplit ▸ hsR1
  have hU : 2 * Real.sqrt (q : ℝ) < (s : ℝ) + 1 := hsplit ▸ hsR2
  unfold roundSqrt
  rw [← hn, ← hs]
  rcases Nat.even_or_odd s with he | ho
  · obtain ⟨t, ht⟩ := he
    have htR : (s : ℝ) = (t : ℝ) + t := by exact_mod_cast ht
    have hm : (s + 1) / 2 = t := by omega
    rw [hm]
    symm
    apply floor_eval
    · push_cast
      linarith
    · push_cast
      linarith
  · obtain ⟨t, ht⟩ := ho
    have htR : (s : ℝ) = 2 * (t : ℝ) + 1 := by exact_mod_cast ht
    have hm : (s + 1) / 2 = t + 1 := by omega
    rw [hm]
    symm
    apply floor_eval
    · push_cast
      linarith
    · push_cast
      linarith

/-- Claim C4 counterexample: blurring rgb(0,0,0) with rgb(10,10,10) at weight
1/2.  The code's quadratic rule gives `round (√50) = 7`; the spec's
linearize–average–delinearize rule (both channels on the linear branch of
the transfer function) gives 5. -/
theorem blur_ne_spec_transfer :
    (blur (mkColor 0 0 0 1) (mkColor 10 10 10 1) (1/2)).red
      ≠ specBlurChannel ((mkColor 0 0 0 1).red : ℝ) ((mkColor 10 10 10 1).red : ℝ) (1/2) := by
  have hc₀ : mkColor 0 0 0 1 = Color.mk 0 0 0 1 := by
    simpa using mkColor_of_int 0 0 0 1 (by norm_num) (by norm_num) (by norm_num) (by norm_num)
      (by norm_num) (by norm_num) (by norm_num) (by norm_num)
  have hc₁ : mkColor 10 10 10 1 = Color.mk 10 10 10 1 := by
    simpa using mkColor_of_int 10 10 10 1 (by norm_num) (by norm_num) (by norm_num) (by norm_num)
      (by norm_num) (by norm_num) (by norm_num) (by norm_num)
  rw [hc₀, hc₁]
  have hblur : (blur (Color.mk 0 0 0 1) (Color.mk 10 10 10 1) (1/2)).red = 7 := by
    show jsRound (clampTo ((roundSqrt ((1 - 1/2) * ((0 : ℤ) : ℚ) ^ 2
        + (1/2) * ((10 : ℤ) : ℚ) ^ 2) : ℤ) : ℚ) 255) = 7
    rw [show ((1 - 1/2) * ((0 : ℤ) : ℚ) ^ 2 + (1/2) * ((10 : ℤ) : ℚ) ^ 2 : ℚ) = 50 by
      push_cast; norm_num]
    rw [show roundSqrt 50 = 7 by
      unfold roundSqrt
      rw [show ⌊(4 * 50 : ℚ)⌋ = 200 from floor_eval (by norm_num) (by norm_num),
        show Int.toNat 200 = 200 from rfl, show Nat.sqrt 200 = 14 by norm_num]
      rfl]
    rw [clampTo_of_mem (by norm_num) (by norm_num)]
    exact jsRound_eval (by norm_num) (by norm_num)
  have hspec : specBlurChannel (((Color.mk 0 0 0 1).red : ℤ) : ℝ)
      (((Color.mk 10 10 10 1).red : ℤ) : ℝ) (1/2) = 5 := by
    show specBlurChannel ((0 : ℤ) : ℝ) ((10 : ℤ) : ℝ) (1/2) = 5
    have e₁ : specSrgbToLinear (((0 : ℤ) : ℝ) / 255) = 0 := by
      unfold specSrgbToLinear
      rw [if_pos (by push_cast; norm_num)]
      push_cast
      norm_num
    have e₂ : specSrgbToLinear (((10 : ℤ) : ℝ) / 255) = 10 / 255 / (12.92 : ℝ) := by
      unfold specSrgbToLinear
      rw [if_pos (by push_cast; norm_num)]
      push_cast
      norm_num
    unfold specBlurChannel
    rw [e₁, e₂]
    have e₃ : specLinearToSrgb ((1 - 1/2) * 0 + 1/2 * (10 / 255 / (12.92 : ℝ))) = 5 / 255 := by
      unfold specLinearToSrgb
      rw [if_pos (by norm_num)]
      norm_num
    rw [e₃]
    rw [show (255 : ℝ) * (5 / 255) + 1/2 = 5 + 1/2 by norm_num]
    exact floor_eval (by norm_num) (by norm_num)
  rw [hblur, hspec]
  norm_num

/-- Claim C4 amended: `blur` computes each result RGB channel as the rounded
square root of the w-weighted average of the *squared* raw channels (a
weighted quadratic mean) — not the sRGB transfer rule — combines alpha by
compound opacity, and satisfies the same weight symmetry as `mix`. -/
theorem blur_quadratic_mean (c₁ c₂ : Color) (w : ℚ) (h₀ : 0 ≤ w) (h₁ : w ≤ 1) :
    (blur c₁ c₂ w).red = jsRound (clampTo ((quadMeanChannel c₁.red c₂.red w : ℤ) : ℚ) 255) ∧
    (blur c₁ c₂ w).green = jsRound (clampTo ((quadMeanChannel c₁.green c₂.green w : ℤ) : ℚ) 255) ∧
    (blur c₁ c₂ w).blue = jsRound (clampTo ((quadMeanChannel c₁.blue c₂.blue w : ℤ) : ℚ) 255) ∧
    (blur c₁ c₂ w).alpha = clampTo (1 - (1 - c₁.alpha) * (1 - c₂.alpha)) 1 ∧
    blur c₁ c₂ w = blur c₂ c₁ (1 - w) := by
  refine ⟨rfl, rfl, rfl, ?_, ?_⟩
  · show clampTo (compoundOpacity [c₁.alpha, c₂.alpha]) 1 = _
    have : compoundOpacity [c₁.alpha, c₂.alpha] = 1 - (1 - c₁.alpha) * (1 - c₂.alpha) := by
      unfold compoundOpacity reduce1
      simp only [List.map, List.foldl]
    rw [this]
  · unfold blur
    have hr : (1 - w) * (c₁.red : ℚ) ^ 2 + w * (c₂.red : ℚ) ^ 2
        = (1 - (1 - w)) * (c₂.red : ℚ) ^ 2 + (1 - w) * (c₁.red : ℚ) ^ 2 := by ring
    have hg : (1 - w) * (c₁.green : ℚ) ^ 2 + w * (c₂.green : ℚ) ^ 2
        = (1 - (1 - w)) * (c₂.green : ℚ) ^ 2 + (1 - w) * (c₁.green : ℚ) ^ 2 := by ring
    have hb : (1 - w) * (c₁.blue : ℚ) ^ 2 + w * (c₂.blue : ℚ) ^ 2
        = (1 - (1 - w)) * (c₂.blue : ℚ) ^ 2 + (1 - w) * (c₁.blue : ℚ) ^ 2 := by ring
    have ha : compoundOpacity [c₁.alpha, c₂.alpha] = compoundOpacity [c₂.alpha, c₁.alpha] := by
      unfold compoundOpacity reduce1
      simp only [List.map, List.foldl]
      ring
    rw [hr, hg, hb, ha]

/-- Claim C4 amended witness: concrete instance at rgb(0,0,0), rgb(10,10,10)
and weight 1/4. -/
theorem blur_quadratic_mean_witness :
    (0 : ℚ) ≤ 1/4 ∧ (1/4 : ℚ) ≤ 1 ∧
      ((blur (mkColor 0 0 0 1) (mkColor 10 10 10 1) (1/4)).red
          = jsRound (clampTo ((quadMeanChannel (mkColor 0 0 0 1).red (mkColor 10 10 10 1).red
              (1/4) : ℤ) : ℚ) 255) ∧
        (blur (mkColor 0 0 0 1) (mkColor 10 10 10 1) (1/4)).green
          = jsRound (clampTo ((quadMeanChannel (mkColor 0 0 0 1).green (mkColor 10 10 10 1).green
              (1/4) : ℤ) : ℚ) 255) ∧
        (blur (mkColor 0 0 0 1) (mkColor 10 10 10 1) (1/4)).blue
          = jsRound (clampTo ((quadMeanChannel (mkColor 0 0 0 1).blue (mkColor 10 10 10 1).blue
              (1/4) : ℤ) : ℚ) 255) ∧
        (blur (mkColor 0 0 0 1) (mkColor 10 10 10 1) (1/4)).alpha
          = clampTo (1 - (1 - (mkColor 0 0 0 1).alpha) * (1 - (mkColor 10 10 10 1).alpha)) 1 ∧
        blur (mkColor 0 0 0 1) (mkColor 10 10 10 1) (1/4)
          = blur (mkColor 10 10 10 1) (mkColor 0 0 0 1) (1 - 1/4)) :=
  ⟨by norm_num, by norm_num,
    blur_quadratic_mean (mkColor 0 0 0 1) (mkColor 10 10 10 1) (1/4) (by norm_num) (by norm_num)⟩

end ColorJs
